import Mathlib

/-!
Verification of the NanoClaw Group Dispatch Engine (src/index.ts and the
IPC / Telegram-channel modules) against its natural-language specification.

The embedding models timestamps as naturals: ISO-8601 timestamp strings of a
fixed format compare lexicographically exactly as they compare chronologically,
and the empty-string sentinel used by the source for "no cursor yet" is
modelled as 0 (every real timestamp compares strictly greater, matching the
source's string comparison against the empty string).

Per-conversation maps (the in-memory lastAgentTimestamp record, the session
map) are modelled as total functions from conversation id to value, updated
pointwise.  Persistence (saveState / setSession writing to the database) is
modelled by shadow fields that are overwritten with the in-memory value at
exactly the source's saveState / setSession call sites.
-/

namespace NanoClaw

/-- An inbound message row, as used by processGroupMessages and the dispatch
loop: sender display name, text content and timestamp
(src/types.ts is not in the source tree; the fields are the ones read by
src/index.ts). -/
structure Msg where
  sender_name : String
  content : String
  timestamp : Nat
deriving DecidableEq, Repr

/-- A registered group, with the fields read by the dispatch engine:
folder (working directory name, also the privilege marker) and the
trigger-requirement flag, which in the source is `boolean | undefined` and is
compared with `!== false`. -/
structure RegisteredGroup where
  name : String
  folder : String
  requiresTrigger : Option Bool
deriving DecidableEq, Repr

/-- Read-only context of the dispatch engine: the main (privileged) group
folder, the trigger-pattern test, the registration store and the message
store (messages of each chat, in timestamp order as the database returns
them). -/
structure Config where
  mainGroupFolder : String
  trigger : String → Bool
  registeredGroups : List (String × RegisteredGroup)
  messages : String → List Msg

/-- Mutable state touched by the cursor/dispatch code of src/index.ts:
the in-memory agent-delivered watermark map, its persisted shadow
(written by saveState), the process-queue liveness view and queued checks
(modelled from the spec, group-queue.ts being absent from the source tree),
and a log of the texts piped into live sandboxes. -/
structure DispatchState where
  lastAgentTimestamp : String → Nat
  persistedAgentTimestamp : String → Nat
  liveProcess : String → Bool
  queuedChecks : List String
  pipedInputs : List (String × String)

/-- Pointwise update of a string-keyed Nat map. -/
def updNat (f : String → Nat) (k : String) (v : Nat) : String → Nat :=
  fun j => if j = k then v else f j

/-- lastAgentTimestamp[chatJid] = ts (in-memory record update). -/
def DispatchState.setCursor (st : DispatchState) (jid : String) (ts : Nat) :
    DispatchState :=
  { st with lastAgentTimestamp := updNat st.lastAgentTimestamp jid ts }

/-- saveState(): persist the in-memory cursor map to the router-state store. -/
def DispatchState.saveState (st : DispatchState) : DispatchState :=
  { st with persistedAgentTimestamp := st.lastAgentTimestamp }

/-- Modelled from the spec: db.ts is not in the source tree; §4.2 step 1
defines the pending computation as "messages with timestamp in
(agent-delivered watermark, now], ordered by timestamp".  The store list is
kept in timestamp order, so filtering preserves the order.  (The source also
passes ASSISTANT_NAME to exclude assistant-authored rows; no claim depends on
that exclusion, so the origin filter is left to the store contents.) -/
def getMessagesSince (msgs : List Msg) (since : Nat) : List Msg :=
  msgs.filter (fun m => since < m.timestamp)

/-- The pending set of a conversation: messages newer than its
agent-delivered watermark. -/
def pendingOf (cfg : Config) (st : DispatchState) (chatJid : String) :
    List Msg :=
  getMessagesSince (cfg.messages chatJid) (st.lastAgentTimestamp chatJid)

/-- The trigger gate of processGroupMessages (src/index.ts lines 115-118):
the turn proceeds when the group is the main group, or requiresTrigger is
literally false, or some pending message matches the trigger pattern
(tested on the trimmed content, as in the source). -/
def triggerOk (cfg : Config) (group : RegisteredGroup) (msgs : List Msg) :
    Bool :=
  (group.folder == cfg.mainGroupFolder) ||
    (group.requiresTrigger == some false) ||
    msgs.any (fun m => cfg.trigger m.content.trim)

/-- Timestamp of the last element of a message list
(messages[messages.length - 1].timestamp); 0 on the empty list, which the
source never reaches because the empty case returns earlier. -/
def lastMsgTimestamp (msgs : List Msg) : Nat :=
  match msgs.getLast? with
  | some m => m.timestamp
  | none => 0

/-- Whether a processGroupMessages turn reaches the invocation: the chat is
registered, the pending set is non-empty, and the trigger gate passes. -/
def turnInvokes (cfg : Config) (st : DispatchState) (chatJid : String) :
    Bool :=
  match cfg.registeredGroups.lookup chatJid with
  | none => false
  | some group =>
    let missed := pendingOf cfg st chatJid
    !missed.isEmpty && triggerOk cfg group missed

/-- The state in which runAgent is started (src/index.ts lines 122-124):
the watermark optimistically advanced to the last pending timestamp, then
persisted by saveState, before the invocation begins. -/
def stateBeforeInvoke (cfg : Config) (st : DispatchState) (chatJid : String) :
    DispatchState :=
  ((st.setCursor chatJid (lastMsgTimestamp (pendingOf cfg st chatJid)))).saveState

/-- Invocation outcome of one turn, as observed by the error handling of
processGroupMessages (src/index.ts lines 139-181): whether runAgent reported
an error, whether any output was routed to the conversation during the turn,
and the value of the isShuttingDown flag at the time the error is handled. -/
structure TurnOutcome where
  hadError : Bool
  outputSent : Bool
  isShuttingDown : Bool
deriving DecidableEq, Repr

/-- processGroupMessages (src/index.ts lines 105-184), restricted to its
cursor effects: unregistered chat, empty pending set and failed trigger gate
return true with the state untouched; otherwise the watermark is
optimistically advanced and persisted before the invocation, and on an
error outcome the cursor is rolled back to its pre-turn value unless the
process is shutting down or output was already sent.  Returns the new state
and the boolean the source returns. -/
def processGroupMessages (cfg : Config) (st : DispatchState) (chatJid : String)
    (outcome : TurnOutcome) : DispatchState × Bool :=
  match cfg.registeredGroups.lookup chatJid with
  | none => (st, true)
  | some group =>
    let missedMessages := pendingOf cfg st chatJid
    if missedMessages.isEmpty then (st, true)
    else if !(triggerOk cfg group missedMessages) then (st, true)
    else
      let previousCursor := st.lastAgentTimestamp chatJid
      let st1 := stateBeforeInvoke cfg st chatJid
      if outcome.hadError then
        if outcome.isShuttingDown then (st1, false)
        else if outcome.outputSent then (st1, false)
        else ((st1.setCursor chatJid previousCursor).saveState, false)
      else (st1, true)

/-- escapeXml (src/router.ts): sequential replacement of the four XML
metacharacters, ampersand first. -/
def escapeXml (s : String) : String :=
  ((((s.replace "&" "&amp;").replace "<" "&lt;").replace ">" "&gt;").replace
    "\x22" "&quot;")

/-- formatMessages (src/router.ts): one XML element per message, wrapped in a
messages element. -/
def formatMessages (messages : List Msg) : String :=
  let lines := messages.map (fun m =>
    "<message sender=\x22" ++ escapeXml m.sender_name ++ "\x22 time=\x22" ++
      toString m.timestamp ++ "\x22>" ++ escapeXml m.content ++ "</message>")
  "<messages>\n" ++ String.intercalate "\n" lines ++ "\n</messages>"

/-- The per-group body of the dispatch loop (src/index.ts lines 278-302):
given the newly observed messages of one chat, apply the trigger gate over
that batch; recompute the full pending set; if it is empty fall back to the
new batch; then either pipe the formatted text into a live sandbox and
advance + persist the watermark to the last piped timestamp, or, when no
sandbox is live, enqueue a QueuedCheck and leave the watermark alone.
GroupQueue.sendMessage and enqueueMessageCheck are modelled from the spec
(group-queue.ts is absent): submit pipes exactly when a SandboxSession is
live, enqueueCheck records a QueuedCheck. -/
def dispatchHandleGroup (cfg : Config) (st : DispatchState) (chatJid : String)
    (groupMessages : List Msg) : DispatchState :=
  match cfg.registeredGroups.lookup chatJid with
  | none => st
  | some group =>
    let isMainGroup := group.folder == cfg.mainGroupFolder
    let needsTrigger := !isMainGroup && !(group.requiresTrigger == some false)
    if needsTrigger &&
        !(groupMessages.any (fun m => cfg.trigger m.content.trim)) then st
    else
      let allPending := pendingOf cfg st chatJid
      let messagesToSend := if allPending.isEmpty then groupMessages
        else allPending
      let formatted := formatMessages messagesToSend
      if st.liveProcess chatJid then
        (({ st with
            pipedInputs := st.pipedInputs ++ [(chatJid, formatted)] }).setCursor
          chatJid (lastMsgTimestamp messagesToSend)).saveState
      else
        { st with queuedChecks := st.queuedChecks ++ [chatJid] }

/-- recoverPendingMessages (src/index.ts lines 311-320): for every registered
conversation, recompute the pending set and enqueue a message check when it
is non-empty.  Nothing else is touched: no invocation, no cursor write. -/
def recoverPendingMessages (cfg : Config) (st : DispatchState) :
    DispatchState :=
  cfg.registeredGroups.foldl
    (fun acc entry =>
      if !(pendingOf cfg acc entry.1).isEmpty then
        { acc with queuedChecks := acc.queuedChecks ++ [entry.1] }
      else acc)
    st

/-- The shutdown handler's cursor advance (src/index.ts lines 411-421): every
key of the in-memory lastAgentTimestamp record is set to the current
wall-clock time and the map is persisted.  The source performs this loop
twice (before and after queue.shutdown) with the same now value; the net
cursor effect is modelled once.  The record's key set is passed explicitly
because the map is modelled as a total function. -/
def shutdownAdvanceCursors (st : DispatchState) (keys : List String)
    (now : Nat) : DispatchState :=
  (keys.foldl (fun acc jid => acc.setCursor jid now) st).saveState

/-- advanceCursor as handed to the Telegram channel
(src/index.ts lines 433-436): set the conversation's watermark to the
current wall-clock time and persist. -/
def advanceCursorNow (st : DispatchState) (chatJid : String) (now : Nat) :
    DispatchState :=
  (st.setCursor chatJid now).saveState

/-- The /stop command handler (src/channels/telegram.ts lines 36-44):
when interruptGroup finds a live process (GroupQueue is modelled from the
spec: interrupt returns false if nothing is running and does not clear the
registration, being cooperative), the cursor is advanced to now. -/
def telegramStopCommand (st : DispatchState) (chatJid : String) (now : Nat) :
    DispatchState :=
  if st.liveProcess chatJid then advanceCursorNow st chatJid now else st

/-- The /restart command handler (src/channels/telegram.ts lines 47-55):
when killGroup finds a live process (modelled from the spec: kill terminates
the process and clears its registration, returning false if nothing runs),
the registration is cleared and the cursor advanced to now. -/
def telegramRestartCommand (st : DispatchState) (chatJid : String)
    (now : Nat) : DispatchState :=
  if st.liveProcess chatJid then
    advanceCursorNow
      { st with liveProcess := fun j => if j = chatJid then false
          else st.liveProcess j }
      chatJid now
  else st

/-- The operations that write the agent-delivered watermark: a full
processGroupMessages turn, one dispatch-loop group body, the shutdown
handler's advance, and the Telegram /stop and /restart commands. -/
inductive CursorWrite where
  | turn (chatJid : String) (outcome : TurnOutcome)
  | dispatch (chatJid : String) (groupMessages : List Msg)
  | shutdownAdv (keys : List String) (now : Nat)
  | stopCmd (chatJid : String) (now : Nat)
  | restartCmd (chatJid : String) (now : Nat)
deriving Repr

/-- Apply one watermark-writing operation to the state. -/
def applyCursorWrite (cfg : Config) (st : DispatchState) :
    CursorWrite → DispatchState
  | .turn c o => (processGroupMessages cfg st c o).1
  | .dispatch c gm => dispatchHandleGroup cfg st c gm
  | .shutdownAdv ks now => shutdownAdvanceCursors st ks now
  | .stopCmd c now => telegramStopCommand st c now
  | .restartCmd c now => telegramRestartCommand st c now

/-- One streamed container output event (src/container-runner.ts is absent;
the fields are the ones read by src/index.ts: an optional continuation
token, an optional result payload, and the status tag). -/
structure ContainerOutput where
  newSessionId : Option String
  result : Option String
  status : String
deriving DecidableEq, Repr

/-- Session continuation-token state: the in-memory sessions record and its
durable shadow written by setSession. -/
structure SessionState where
  sessions : String → Option String
  persistedSessions : String → Option String

/-- Pointwise update of a string-keyed optional-string map. -/
def updOptStr (f : String → Option String) (k : String) (v : String) :
    String → Option String :=
  fun j => if j = k then some v else f j

/-- The wrapped per-event handler of runAgent (src/index.ts lines 213-221):
when the event carries a newSessionId, the in-memory sessions record and the
durable session store are updated first; only then does the remaining output
handling of the event run (which never touches the session maps). -/
def wrappedOnOutput (folder : String) (st : SessionState)
    (output : ContainerOutput) : SessionState :=
  match output.newSessionId with
  | some sid =>
    { sessions := updOptStr st.sessions folder sid,
      persistedSessions := updOptStr st.persistedSessions folder sid }
  | none => st

/-- Folding the wrapped handler over a stream of container output events, as
runAgent does while the container runs. -/
def runAgentStream (folder : String) (st : SessionState)
    (events : List ContainerOutput) : SessionState :=
  events.foldl (wrappedOnOutput folder) st

/-- The most recently observed continuation token in a stream of events,
starting from a given initial token. -/
def lastNewSessionId (init : Option String)
    (events : List ContainerOutput) : Option String :=
  events.foldl
    (fun acc e => match e.newSessionId with
      | some s => some s
      | none => acc)
    init

/-- A scheduled task row, with the fields written and read by
processTaskIpc (src/ipc.ts). -/
structure Task where
  id : String
  group_folder : String
  chat_jid : String
  prompt : String
  schedule_type : String
  schedule_value : String
  status : String
  next_run : Option Nat
  created_at : Nat
deriving DecidableEq, Repr

/-- The parsed payload of a task-control IPC request, mirroring the optional
fields of the source's data record that the task branches read. -/
structure TaskIpcData where
  type : String
  taskId : Option String
  prompt : Option String
  schedule_type : Option String
  schedule_value : Option String
  context_mode : Option String
  targetJid : Option String
deriving DecidableEq, Repr

/-- processTaskIpc (src/ipc.ts lines 145-228), restricted to the branches
that mutate the task store (schedule_task, pause_task, resume_task,
cancel_task; the remaining branches never touch tasks).  parseNextRun
abstracts the cron-parser / interval / once next-run computation of
lines 166-189 (an external library): outer none means the schedule value was
rejected (the source breaks), some nr means the task is created with
next_run nr (nr itself none for an unrecognized schedule_type, for which the
source leaves nextRun null but still creates the task). -/
def processTaskIpc (data : TaskIpcData) (sourceGroup : String) (isMain : Bool)
    (groups : List (String × RegisteredGroup))
    (parseNextRun : String → String → Option (Option Nat))
    (newTaskId : String) (now : Nat) (tasks : List Task) : List Task :=
  if data.type == "schedule_task" then
    match data.prompt, data.schedule_type, data.schedule_value,
        data.targetJid with
    | some p, some stype, some sval, some targetJid =>
      match groups.lookup targetJid with
      | none => tasks
      | some targetGroupEntry =>
        let targetFolder := targetGroupEntry.folder
        if !isMain && !(targetFolder == sourceGroup) then tasks
        else
          match parseNextRun stype sval with
          | none => tasks
          | some nextRun =>
            tasks ++ [{ id := newTaskId,
                        group_folder := targetFolder,
                        chat_jid := targetJid,
                        prompt := p,
                        schedule_type := stype,
                        schedule_value := sval,
                        status := "active",
                        next_run := nextRun,
                        created_at := now }]
    | _, _, _, _ => tasks
  else if data.type == "pause_task" || data.type == "resume_task" ||
      data.type == "cancel_task" then
    match data.taskId with
    | none => tasks
    | some taskId =>
      match tasks.find? (fun t => t.id == taskId) with
      | none => tasks
      | some task =>
        if !isMain && !(task.group_folder == sourceGroup) then tasks
        else if data.type == "cancel_task" then
          tasks.filter (fun t => !(t.id == taskId))
        else
          tasks.map (fun t =>
            if t.id == taskId then
              { t with status := if data.type == "pause_task" then "paused"
                  else "active" }
            else t)
  else tasks

end NanoClaw


namespace NanoClaw

/-! ## Helper lemmas -/

theorem updNat_same (f : String → Nat) (k : String) (v : Nat) :
    updNat f k v k = v := by
  simp [updNat]

theorem updNat_other (f : String → Nat) (k : String) (v : Nat) (j : String)
    (h : j ≠ k) : updNat f k v j = f j := by
  simp [updNat, h]

theorem mem_getMessagesSince {msgs : List Msg} {since : Nat} {m : Msg}
    (h : m ∈ getMessagesSince msgs since) : since < m.timestamp := by
  have := (List.mem_filter.mp h).2
  simpa using this

theorem lastMsgTimestamp_mem (l : List Msg) (h : l ≠ []) :
    ∃ m ∈ l, m.timestamp = lastMsgTimestamp l := by
  refine ⟨l.getLast h, List.getLast_mem h, ?_⟩
  simp [lastMsgTimestamp, List.getLast?_eq_getLast_of_ne_nil h]

theorem lt_lastMsgTimestamp_getMessagesSince (msgs : List Msg) (since : Nat)
    (h : (getMessagesSince msgs since).isEmpty = false) :
    since < lastMsgTimestamp (getMessagesSince msgs since) := by
  have hne : getMessagesSince msgs since ≠ [] := by
    simpa [List.isEmpty_iff] using h
  obtain ⟨m, hm, hts⟩ := lastMsgTimestamp_mem _ hne
  exact hts ▸ mem_getMessagesSince hm

end NanoClaw

namespace NanoClaw

/-! ## Claim theorems -/

/-- C1: a processGroupMessages turn that reaches the invocation and ends with
an invocation error, with no output routed to the conversation and the
process not shutting down, leaves the agent-delivered watermark of that
conversation exactly at its pre-turn value (rollback), so the pending set
recomputed on the next turn equals the failed turn's pending set; the turn
itself reports failure. -/
theorem processGroupMessages_rollback_restores_cursor (cfg : Config)
    (st : DispatchState) (c : String) (o : TurnOutcome)
    (hinv : turnInvokes cfg st c = true)
    (herr : o.hadError = true)
    (hout : o.outputSent = false)
    (hsd : o.isShuttingDown = false) :
    (processGroupMessages cfg st c o).1.lastAgentTimestamp c =
        st.lastAgentTimestamp c ∧
      pendingOf cfg (processGroupMessages cfg st c o).1 c =
        pendingOf cfg st c ∧
      (processGroupMessages cfg st c o).2 = false := by
  unfold turnInvokes at hinv
  cases hg : cfg.registeredGroups.lookup c with
  | none => rw [hg] at hinv; exact absurd hinv (by simp)
  | some g =>
    rw [hg] at hinv
    simp only [Bool.and_eq_true, Bool.not_eq_true'] at hinv
    obtain ⟨hne, htr⟩ := hinv
    have hres : processGroupMessages cfg st c o =
        (((stateBeforeInvoke cfg st c).setCursor c
            (st.lastAgentTimestamp c)).saveState, false) := by
      unfold processGroupMessages
      rw [hg]
      simp [hne, htr, herr, hout, hsd]
    have hcur : (processGroupMessages cfg st c o).1.lastAgentTimestamp c =
        st.lastAgentTimestamp c := by
      rw [hres]
      simp [DispatchState.setCursor, DispatchState.saveState, updNat_same]
    refine ⟨hcur, ?_, by rw [hres]⟩
    unfold pendingOf
    rw [hcur]

end NanoClaw

namespace NanoClaw

/-- Concrete fixtures used by the witness instantiations. -/
def wMsgA : Msg := ⟨"alice", "hi", 3⟩

def wMsgB : Msg := ⟨"bob", "yo", 7⟩

def wGroupTrig : RegisteredGroup := ⟨"Fam", "fam", some true⟩

def wCfg : Config :=
  ⟨"main", fun _ => true, [("chat", wGroupTrig)],
    fun j => if j = "chat" then [wMsgA, wMsgB] else []⟩

def wSt : DispatchState := ⟨fun _ => 2, fun _ => 2, fun _ => true, [], []⟩

theorem processGroupMessages_rollback_restores_cursor_witness :
    (processGroupMessages wCfg wSt "chat"
          ⟨true, false, false⟩).1.lastAgentTimestamp "chat" =
        wSt.lastAgentTimestamp "chat" ∧
      pendingOf wCfg
          (processGroupMessages wCfg wSt "chat" ⟨true, false, false⟩).1
          "chat" =
        pendingOf wCfg wSt "chat" ∧
      (processGroupMessages wCfg wSt "chat" ⟨true, false, false⟩).2 = false :=
  processGroupMessages_rollback_restores_cursor wCfg wSt "chat"
    ⟨true, false, false⟩ (by decide) rfl rfl rfl

/-- C2: a turn that reaches the invocation and ends with an invocation error
after output was already routed to the conversation, or while the process is
shutting down, keeps the optimistically advanced watermark (the last pending
message's timestamp) even though the turn reports failure. -/
theorem processGroupMessages_no_rollback_after_output (cfg : Config)
    (st : DispatchState) (c : String) (o : TurnOutcome)
    (hinv : turnInvokes cfg st c = true)
    (herr : o.hadError = true)
    (h : o.outputSent = true ∨ o.isShuttingDown = true) :
    (processGroupMessages cfg st c o).1.lastAgentTimestamp c =
        lastMsgTimestamp (pendingOf cfg st c) ∧
      (processGroupMessages cfg st c o).2 = false := by
  unfold turnInvokes at hinv
  cases hg : cfg.registeredGroups.lookup c with
  | none => rw [hg] at hinv; exact absurd hinv (by simp)
  | some g =>
    rw [hg] at hinv
    simp only [Bool.and_eq_true, Bool.not_eq_true'] at hinv
    obtain ⟨hne, htr⟩ := hinv
    have hres : (processGroupMessages cfg st c o).1 =
        stateBeforeInvoke cfg st c ∧
        (processGroupMessages cfg st c o).2 = false := by
      unfold processGroupMessages
      rw [hg]
      rcases h with h | h
      · cases hsd : o.isShuttingDown <;> simp [hne, htr, herr, h, hsd]
      · simp [hne, htr, herr, h]
    refine ⟨?_, hres.2⟩
    rw [hres.1]
    simp [stateBeforeInvoke, DispatchState.setCursor, DispatchState.saveState,
      updNat_same]

theorem processGroupMessages_no_rollback_after_output_witness :
    (processGroupMessages wCfg wSt "chat"
          ⟨true, true, false⟩).1.lastAgentTimestamp "chat" =
        lastMsgTimestamp (pendingOf wCfg wSt "chat") ∧
      (processGroupMessages wCfg wSt "chat" ⟨true, true, false⟩).2 = false :=
  processGroupMessages_no_rollback_after_output wCfg wSt "chat"
    ⟨true, true, false⟩ (by decide) rfl (Or.inl rfl)

end NanoClaw

namespace NanoClaw

theorem le_lastMsgTimestamp_of_sorted (l : List Msg)
    (hl : l.Pairwise (fun a b => a.timestamp ≤ b.timestamp)) :
    ∀ m ∈ l, m.timestamp ≤ lastMsgTimestamp l := by
  induction l with
  | nil => intro m hm; cases hm
  | cons x xs ih =>
    intro m hm
    cases xs with
    | nil =>
      rcases List.mem_singleton.mp hm with rfl
      simp [lastMsgTimestamp]
    | cons y ys =>
      have hlast : lastMsgTimestamp (x :: y :: ys) =
          lastMsgTimestamp (y :: ys) := by
        simp [lastMsgTimestamp, List.getLast?_cons_cons]
      rw [hlast]
      rcases List.mem_cons.mp hm with rfl | hm'
      · obtain ⟨m', hm', hts⟩ := lastMsgTimestamp_mem (y :: ys) (by simp)
        calc m.timestamp ≤ m'.timestamp := (List.pairwise_cons.mp hl).1 m' hm'
          _ = lastMsgTimestamp (y :: ys) := hts
      · exact ih (List.pairwise_cons.mp hl).2 m hm'

/-- C3: when a turn has a non-empty pending set and passes the trigger gate,
the state in which runAgent is started carries the agent-delivered watermark
at the timestamp of the last pending message, already persisted; under the
store's timestamp ordering that last message is the latest one. -/
theorem stateBeforeInvoke_advances_and_persists (cfg : Config)
    (st : DispatchState) (c : String)
    (_hinv : turnInvokes cfg st c = true)
    (hsorted : (cfg.messages c).Pairwise
      (fun a b => a.timestamp ≤ b.timestamp)) :
    (stateBeforeInvoke cfg st c).lastAgentTimestamp c =
        lastMsgTimestamp (pendingOf cfg st c) ∧
      (stateBeforeInvoke cfg st c).persistedAgentTimestamp c =
        lastMsgTimestamp (pendingOf cfg st c) ∧
      ∀ m ∈ pendingOf cfg st c,
        m.timestamp ≤ lastMsgTimestamp (pendingOf cfg st c) := by
  refine ⟨?_, ?_, ?_⟩
  · simp [stateBeforeInvoke, DispatchState.setCursor, DispatchState.saveState,
      updNat_same]
  · simp [stateBeforeInvoke, DispatchState.setCursor, DispatchState.saveState,
      updNat_same]
  · exact le_lastMsgTimestamp_of_sorted _
      (hsorted.sublist (List.filter_sublist _))

theorem stateBeforeInvoke_advances_and_persists_witness :
    (stateBeforeInvoke wCfg wSt "chat").lastAgentTimestamp "chat" =
        lastMsgTimestamp (pendingOf wCfg wSt "chat") ∧
      (stateBeforeInvoke wCfg wSt "chat").persistedAgentTimestamp "chat" =
        lastMsgTimestamp (pendingOf wCfg wSt "chat") ∧
      wMsgA.timestamp ≤ lastMsgTimestamp (pendingOf wCfg wSt "chat") :=
  ⟨(stateBeforeInvoke_advances_and_persists wCfg wSt "chat" (by decide)
      (by simp [wCfg, wMsgA, wMsgB])).1,
    (stateBeforeInvoke_advances_and_persists wCfg wSt "chat" (by decide)
      (by simp [wCfg, wMsgA, wMsgB])).2.1,
    (stateBeforeInvoke_advances_and_persists wCfg wSt "chat" (by decide)
      (by simp [wCfg, wMsgA, wMsgB])).2.2 wMsgA (by decide)⟩

end NanoClaw

namespace NanoClaw

/-- C4: for a registered non-main conversation whose requiresTrigger flag is
not false, when no pending message matches the trigger pattern,
processGroupMessages returns true without reaching the invocation and
without touching any state, so the unmatched messages stay pending. -/
theorem processGroupMessages_trigger_gate_noop (cfg : Config)
    (st : DispatchState) (c : String) (o : TurnOutcome)
    (g : RegisteredGroup)
    (hg : cfg.registeredGroups.lookup c = some g)
    (hmain : (g.folder == cfg.mainGroupFolder) = false)
    (hreq : (g.requiresTrigger == some false) = false)
    (htrig : (pendingOf cfg st c).any
      (fun m => cfg.trigger m.content.trim) = false) :
    processGroupMessages cfg st c o = (st, true) ∧
      turnInvokes cfg st c = false := by
  constructor
  · unfold processGroupMessages
    rw [hg]
    cases hne : (pendingOf cfg st c).isEmpty with
    | true => simp [hne]
    | false => simp [hne, triggerOk, hmain, hreq, htrig]
  · unfold turnInvokes
    rw [hg]
    simp [triggerOk, hmain, hreq, htrig]

theorem processGroupMessages_trigger_gate_noop_witness :
    processGroupMessages
        ⟨"main", fun _ => false, [("chat", wGroupTrig)],
          fun j => if j = "chat" then [wMsgA, wMsgB] else []⟩
        wSt "chat" ⟨false, false, false⟩ = (wSt, true) ∧
      turnInvokes
        ⟨"main", fun _ => false, [("chat", wGroupTrig)],
          fun j => if j = "chat" then [wMsgA, wMsgB] else []⟩
        wSt "chat" = false :=
  processGroupMessages_trigger_gate_noop _ wSt "chat" ⟨false, false, false⟩
    wGroupTrig (by decide) (by decide) (by decide) (by decide)

end NanoClaw

namespace NanoClaw

theorem foldl_setCursor_lastAgentTimestamp (keys : List String)
    (st : DispatchState) (now : Nat) (j : String) :
    (keys.foldl (fun acc jid => acc.setCursor jid now)
        st).lastAgentTimestamp j =
      if j ∈ keys then now else st.lastAgentTimestamp j := by
  induction keys generalizing st with
  | nil => simp
  | cons k ks ih =>
    simp only [List.foldl_cons, ih]
    by_cases hjk : j = k
    · subst hjk
      by_cases hmem : j ∈ ks <;>
        simp [hmem, DispatchState.setCursor, updNat_same]
    · by_cases hmem : j ∈ ks <;>
        simp [hmem, hjk, DispatchState.setCursor, updNat]

/-- Fixture for the watermark-regression counterexample: a conversation whose
cursor sits at 10 (after a wall-clock advance), a live sandbox, and a newly
observed message with the older timestamp 5. -/
def cexMsg : Msg := ⟨"u", "late", 5⟩

def cexGroup : RegisteredGroup := ⟨"G", "g", some false⟩

def cexCfg : Config :=
  ⟨"main", fun _ => false, [("c", cexGroup)],
    fun j => if j = "c" then [cexMsg] else []⟩

def cexSt : DispatchState := ⟨fun _ => 10, fun _ => 10, fun _ => true, [], []⟩

/-- C5 counterexample: a dispatch-loop pipe - not a rollback - strictly
lowers the agent-delivered watermark.  With the cursor at 10, the recomputed
pending set is empty, so the loop falls back to piping the newly observed
batch and sets the watermark to that batch's last timestamp 5. -/
theorem dispatch_fallback_lowers_cursor :
    (applyCursorWrite cexCfg cexSt
        (CursorWrite.dispatch "c" [cexMsg])).lastAgentTimestamp "c" = 5 ∧
      cexSt.lastAgentTimestamp "c" = 10 ∧
      (pendingOf cexCfg cexSt "c").isEmpty = true := by
  refine ⟨?_, rfl, by decide⟩
  decide

end NanoClaw

namespace NanoClaw

/-- C5 (amended): across the watermark-writing operations - a whole
processGroupMessages turn (whose rollback, the claimed exception, restores
the pre-turn value and so is net non-decreasing at this granularity), the
dispatch-loop pipe restricted to a non-empty recomputed pending set (the
empty-pending fallback is the second exception, shown in the
counterexample), the shutdown advance and the /stop and /restart cursor
advances with the wall clock not behind the watermark - the agent-delivered
watermark of every conversation never decreases. -/
theorem cursor_monotone_except_rollback_and_fallback (cfg : Config)
    (st : DispatchState) (w : CursorWrite)
    (hd : ∀ c gm, w = CursorWrite.dispatch c gm →
      (pendingOf cfg st c).isEmpty = false)
    (hs : ∀ ks now, w = CursorWrite.shutdownAdv ks now →
      ∀ j, st.lastAgentTimestamp j ≤ now)
    (hstop : ∀ c now, w = CursorWrite.stopCmd c now →
      st.lastAgentTimestamp c ≤ now)
    (hrestart : ∀ c now, w = CursorWrite.restartCmd c now →
      st.lastAgentTimestamp c ≤ now) :
    ∀ j, st.lastAgentTimestamp j ≤
      (applyCursorWrite cfg st w).lastAgentTimestamp j := by
  intro j
  cases w with
  | turn c o =>
    show st.lastAgentTimestamp j ≤
      (processGroupMessages cfg st c o).1.lastAgentTimestamp j
    unfold processGroupMessages
    cases hg : cfg.registeredGroups.lookup c with
    | none => simp
    | some g =>
      cases hne : (pendingOf cfg st c).isEmpty with
      | true => simp [hne]
      | false =>
        cases htr : triggerOk cfg g (pendingOf cfg st c) with
        | false => simp [hne, htr]
        | true =>
          have hlt : st.lastAgentTimestamp c <
              lastMsgTimestamp (pendingOf cfg st c) :=
            lt_lastMsgTimestamp_getMessagesSince (cfg.messages c)
              (st.lastAgentTimestamp c) hne
          by_cases hj : j = c
          · subst hj
            cases he : o.hadError <;>
              cases hsd : o.isShuttingDown <;>
              cases hos : o.outputSent <;>
              simp [hne, htr, he, hsd, hos, stateBeforeInvoke,
                DispatchState.setCursor, DispatchState.saveState,
                updNat] <;>
              omega
          · cases he : o.hadError <;>
              cases hsd : o.isShuttingDown <;>
              cases hos : o.outputSent <;>
              simp [hne, htr, he, hsd, hos, stateBeforeInvoke,
                DispatchState.setCursor, DispatchState.saveState, updNat,
                hj]
  | dispatch c gm =>
    have hpend := hd c gm rfl
    have hlt : st.lastAgentTimestamp c <
        lastMsgTimestamp (pendingOf cfg st c) :=
      lt_lastMsgTimestamp_getMessagesSince (cfg.messages c)
        (st.lastAgentTimestamp c) hpend
    show st.lastAgentTimestamp j ≤
      (dispatchHandleGroup cfg st c gm).lastAgentTimestamp j
    unfold dispatchHandleGroup
    cases hg : cfg.registeredGroups.lookup c with
    | none => simp
    | some g =>
      by_cases hlive : st.liveProcess c = true <;>
        by_cases hj : j = c <;>
        cases hgate : (!(g.folder == cfg.mainGroupFolder) &&
            !(g.requiresTrigger == some false)) &&
            !gm.any (fun m => cfg.trigger m.content.trim) <;>
        first
        | (subst hj
           simp [hgate, hlive, hpend, DispatchState.setCursor,
             DispatchState.saveState, updNat]
           omega)
        | (subst hj
           simp [hgate, hlive, hpend, DispatchState.setCursor,
             DispatchState.saveState, updNat])
        | simp [hgate, hlive, hj, hpend, DispatchState.setCursor,
            DispatchState.saveState, updNat]
  | shutdownAdv ks now =>
    have hnow := hs ks now rfl
    show st.lastAgentTimestamp j ≤
      (shutdownAdvanceCursors st ks now).lastAgentTimestamp j
    unfold shutdownAdvanceCursors
    rw [DispatchState.saveState, foldl_setCursor_lastAgentTimestamp]
    by_cases hmem : j ∈ ks <;> simp [hmem]
    exact hnow j
  | stopCmd c now =>
    have hnow := hstop c now rfl
    show st.lastAgentTimestamp j ≤
      (telegramStopCommand st c now).lastAgentTimestamp j
    unfold telegramStopCommand advanceCursorNow
    by_cases hlive : st.liveProcess c = true <;>
      by_cases hj : j = c <;>
      simp [hlive, hj, DispatchState.setCursor, DispatchState.saveState,
        updNat]
    exact hnow
  | restartCmd c now =>
    have hnow := hrestart c now rfl
    show st.lastAgentTimestamp j ≤
      (telegramRestartCommand st c now).lastAgentTimestamp j
    unfold telegramRestartCommand advanceCursorNow
    by_cases hlive : st.liveProcess c = true <;>
      by_cases hj : j = c <;>
      simp [hlive, hj, DispatchState.setCursor, DispatchState.saveState,
        updNat]
    exact hnow

theorem cursor_monotone_except_rollback_and_fallback_witness :
    wSt.lastAgentTimestamp "chat" ≤
      (applyCursorWrite wCfg wSt
        (CursorWrite.stopCmd "chat" 9)).lastAgentTimestamp "chat" :=
  cursor_monotone_except_rollback_and_fallback wCfg wSt
    (CursorWrite.stopCmd "chat" 9)
    (fun _ _ h => nomatch h) (fun _ _ h => nomatch h)
    (fun c now h => by
      cases h
      decide)
    (fun _ _ h => nomatch h) "chat"

end NanoClaw

namespace NanoClaw

/-- C6: in the dispatch loop, a registered conversation whose new batch
passes trigger gating sees exactly one of two outcomes: with a live sandbox
the formatted pending messages (falling back to the new batch when the
recomputed pending set is empty) are piped, and the watermark advances to
the last piped timestamp with no QueuedCheck added; with no live sandbox a
QueuedCheck is enqueued and nothing else - in particular the watermark -
changes. -/
theorem dispatchHandleGroup_pipe_or_enqueue (cfg : Config)
    (st : DispatchState) (c : String) (gm : List Msg) (g : RegisteredGroup)
    (hg : cfg.registeredGroups.lookup c = some g)
    (hgate : ((!(g.folder == cfg.mainGroupFolder) &&
        !(g.requiresTrigger == some false)) &&
        !gm.any (fun m => cfg.trigger m.content.trim)) = false) :
    (st.liveProcess c = true →
      (dispatchHandleGroup cfg st c gm).lastAgentTimestamp c =
          lastMsgTimestamp
            (if (pendingOf cfg st c).isEmpty then gm
              else pendingOf cfg st c) ∧
        (dispatchHandleGroup cfg st c gm).queuedChecks = st.queuedChecks ∧
        (dispatchHandleGroup cfg st c gm).pipedInputs = st.pipedInputs ++
          [(c, formatMessages
            (if (pendingOf cfg st c).isEmpty then gm
              else pendingOf cfg st c))]) ∧
      (st.liveProcess c = false →
        dispatchHandleGroup cfg st c gm =
          { st with queuedChecks := st.queuedChecks ++ [c] }) := by
  constructor
  · intro hlive
    unfold dispatchHandleGroup
    rw [hg]
    simp [hgate, hlive, DispatchState.setCursor, DispatchState.saveState,
      updNat_same]
  · intro hlive
    unfold dispatchHandleGroup
    rw [hg]
    simp [hgate, hlive]

theorem dispatchHandleGroup_pipe_or_enqueue_witness :
    (dispatchHandleGroup wCfg wSt "chat" [wMsgA]).lastAgentTimestamp
          "chat" =
        lastMsgTimestamp
          (if (pendingOf wCfg wSt "chat").isEmpty then [wMsgA]
            else pendingOf wCfg wSt "chat") ∧
      (dispatchHandleGroup wCfg wSt "chat" [wMsgA]).queuedChecks =
        wSt.queuedChecks ∧
      (dispatchHandleGroup wCfg wSt "chat" [wMsgA]).pipedInputs =
        wSt.pipedInputs ++
          [("chat", formatMessages
            (if (pendingOf wCfg wSt "chat").isEmpty then [wMsgA]
              else pendingOf wCfg wSt "chat"))] :=
  (dispatchHandleGroup_pipe_or_enqueue wCfg wSt "chat" [wMsgA] wGroupTrig
    (by decide) (by decide)).1 rfl

theorem pendingOf_update_queuedChecks (cfg : Config) (st : DispatchState)
    (q : List String) (x : String) :
    pendingOf cfg { st with queuedChecks := q } x = pendingOf cfg st x :=
  rfl

theorem recover_foldl_spec (cfg : Config)
    (gs : List (String × RegisteredGroup)) :
    ∀ st : DispatchState,
      gs.foldl
        (fun acc entry =>
          if !(pendingOf cfg acc entry.1).isEmpty then
            { acc with queuedChecks := acc.queuedChecks ++ [entry.1] }
          else acc) st =
      { st with queuedChecks := st.queuedChecks ++
          (gs.filter
            (fun e => !(pendingOf cfg st e.1).isEmpty)).map Prod.fst } := by
  induction gs with
  | nil => intro st; simp
  | cons e gs ih =>
    intro st
    simp only [List.foldl_cons]
    by_cases hp : (pendingOf cfg st e.1).isEmpty
    · have hstep : (if !(pendingOf cfg st e.1).isEmpty then
          { st with queuedChecks := st.queuedChecks ++ [e.1] }
        else st) = st := by
        simp [hp]
      rw [hstep, ih st, List.filter_cons]
      simp [hp]
    · have hstep : (if !(pendingOf cfg st e.1).isEmpty then
          { st with queuedChecks := st.queuedChecks ++ [e.1] }
        else st) = { st with queuedChecks := st.queuedChecks ++ [e.1] } := by
        simp [hp]
      rw [hstep, ih _, List.filter_cons]
      simp [pendingOf_update_queuedChecks, hp, List.append_assoc]

/-- C7: startup recovery leaves every cursor (in memory and persisted), the
process table and the piped-input log untouched, and appends a QueuedCheck
for exactly those registered conversations whose pending set - the messages
newer than the agent-delivered watermark - is non-empty.  No invocation is
started. -/
theorem recoverPendingMessages_enqueues_only (cfg : Config)
    (st : DispatchState) :
    recoverPendingMessages cfg st =
      { st with queuedChecks := st.queuedChecks ++
          (cfg.registeredGroups.filter
            (fun e => !(pendingOf cfg st e.1).isEmpty)).map Prod.fst } := by
  unfold recoverPendingMessages
  exact recover_foldl_spec cfg cfg.registeredGroups st

end NanoClaw

namespace NanoClaw

theorem runAgentStream_persisted_spec (folder : String) :
    ∀ (events : List ContainerOutput) (st : SessionState),
      (runAgentStream folder st events).persistedSessions folder =
          lastNewSessionId (st.persistedSessions folder) events ∧
        (st.sessions folder = st.persistedSessions folder →
          (runAgentStream folder st events).sessions folder =
            (runAgentStream folder st events).persistedSessions folder) := by
  intro events
  induction events with
  | nil => intro st; exact ⟨rfl, fun h => h⟩
  | cons e rest ih =>
    intro st
    have hcons : runAgentStream folder st (e :: rest) =
        runAgentStream folder (wrappedOnOutput folder st e) rest := rfl
    have hlast : lastNewSessionId (st.persistedSessions folder) (e :: rest) =
        lastNewSessionId
          ((wrappedOnOutput folder st e).persistedSessions folder) rest := by
      cases hsid : e.newSessionId with
      | none =>
        simp [lastNewSessionId, List.foldl_cons, wrappedOnOutput, hsid]
      | some sid =>
        simp [lastNewSessionId, List.foldl_cons, wrappedOnOutput, hsid,
          updOptStr]
    rw [hcons, hlast]
    refine ⟨(ih _).1, fun h => (ih _).2 ?_⟩
    cases hsid : e.newSessionId with
    | none => simpa [wrappedOnOutput, hsid] using h
    | some sid => simp [wrappedOnOutput, hsid, updOptStr]

/-- C8: at every point in a container's output stream - after any prefix of
the events - the durably persisted continuation token for the group's folder
equals the most recently observed newSessionId of that prefix (or the
initial token when none was observed), because the wrapped handler persists
the token before the rest of the event is processed; the in-memory session
record always agrees with the persisted one. -/
theorem runAgent_persists_token_immediately (folder : String)
    (st : SessionState) (events pre suf : List ContainerOutput)
    (_hsplit : events = pre ++ suf)
    (hinit : st.sessions folder = st.persistedSessions folder) :
    (runAgentStream folder st pre).persistedSessions folder =
        lastNewSessionId (st.persistedSessions folder) pre ∧
      (runAgentStream folder st pre).sessions folder =
        (runAgentStream folder st pre).persistedSessions folder := by
  have h := runAgentStream_persisted_spec folder pre st
  exact ⟨h.1, h.2 hinit⟩

theorem runAgent_persists_token_immediately_witness :
    (runAgentStream "fam" ⟨fun _ => none, fun _ => none⟩
          [⟨some "s1", none, "success"⟩]).persistedSessions "fam" =
        lastNewSessionId none [⟨some "s1", none, "success"⟩] ∧
      (runAgentStream "fam" ⟨fun _ => none, fun _ => none⟩
          [⟨some "s1", none, "success"⟩]).sessions "fam" =
        (runAgentStream "fam" ⟨fun _ => none, fun _ => none⟩
          [⟨some "s1", none, "success"⟩]).persistedSessions "fam" :=
  runAgent_persists_token_immediately "fam" ⟨fun _ => none, fun _ => none⟩
    [⟨some "s1", none, "success"⟩, ⟨none, some "done", "success"⟩]
    [⟨some "s1", none, "success"⟩] [⟨none, some "done", "success"⟩]
    rfl rfl

end NanoClaw

namespace NanoClaw

/-- C9: a task-control request (pause_task, resume_task, cancel_task)
arriving from a non-main source group performs no task mutation when the
targeted task does not exist or lives in a different group folder, and a
schedule_task request from a non-main source group targeting a conversation
registered to a different folder creates nothing: in all these cases the
task store is returned unchanged. -/
theorem processTaskIpc_scoped_to_source_group (data : TaskIpcData)
    (sourceGroup : String) (groups : List (String × RegisteredGroup))
    (parseNextRun : String → String → Option (Option Nat))
    (newTaskId : String) (now : Nat) (tasks : List Task) :
    ((data.type = "pause_task" ∨ data.type = "resume_task" ∨
        data.type = "cancel_task") →
      (∀ tid task, data.taskId = some tid →
        tasks.find? (fun t => t.id == tid) = some task →
        (task.group_folder == sourceGroup) = false) →
      processTaskIpc data sourceGroup false groups parseNextRun newTaskId
        now tasks = tasks) ∧
    (data.type = "schedule_task" →
      (∀ tj g, data.targetJid = some tj → groups.lookup tj = some g →
        (g.folder == sourceGroup) = false) →
      processTaskIpc data sourceGroup false groups parseNextRun newTaskId
        now tasks = tasks) := by
  constructor
  · intro htype hscope
    unfold processTaskIpc
    have hns : (data.type == "schedule_task") = false := by
      rcases htype with h | h | h <;> rw [h] <;> decide
    rw [if_neg (by simp [hns])]
    have hctl : (data.type == "pause_task" || data.type == "resume_task" ||
        data.type == "cancel_task") = true := by
      rcases htype with h | h | h <;> rw [h] <;> decide
    rw [if_pos (by simp_all)]
    cases htid : data.taskId with
    | none => rfl
    | some tid =>
      cases hf : tasks.find? (fun t => t.id == tid) with
      | none => simp [hf]
      | some task =>
        have hm : task.group_folder ≠ sourceGroup := by
          simpa using hscope tid task htid hf
        simp [hf, hm]
  · intro htype hscope
    unfold processTaskIpc
    rw [if_pos (by rw [htype]; decide)]
    cases hp : data.prompt with
    | none =>
      cases data.schedule_type <;> cases data.schedule_value <;>
        cases data.targetJid <;> rfl
    | some p =>
      cases hst : data.schedule_type with
      | none => cases data.schedule_value <;> cases data.targetJid <;> rfl
      | some stype =>
        cases hsv : data.schedule_value with
        | none => cases data.targetJid <;> rfl
        | some sval =>
          cases htj : data.targetJid with
          | none => rfl
          | some tj =>
            cases hg : groups.lookup tj with
            | none => simp [hg]
            | some g =>
              have hm : g.folder ≠ sourceGroup := by
                simpa using hscope tj g htj hg
              simp [hg, hm]

def wTask : Task :=
  ⟨"t1", "ops", "oc", "do it", "interval", "60000", "active", some 5, 1⟩

theorem processTaskIpc_scoped_to_source_group_witness :
    processTaskIpc ⟨"cancel_task", some "t1", none, none, none, none, none⟩
      "fam" false [] (fun _ _ => none) "t2" 9 [wTask] = [wTask] :=
  (processTaskIpc_scoped_to_source_group
      ⟨"cancel_task", some "t1", none, none, none, none, none⟩ "fam" []
      (fun _ _ => none) "t2" 9 [wTask]).1
    (Or.inr (Or.inr rfl))
    (fun tid task h1 h2 => by
      cases h1
      have h3 : wTask.id = "t1" ∧ wTask = task := by simpa using h2
      rw [← h3.2]
      decide)

end NanoClaw

namespace NanoClaw

/-- Fixtures for the permanent-skip counterexample: cursor at 30, a pending
message at 50 when /stop advances the cursor to wall-clock 100, then a
late-timestamped message at 40 newly observed by the dispatch loop. -/
def c10Skipped : Msg := ⟨"u", "ask", 50⟩

def c10Late : Msg := ⟨"v", "late", 40⟩

def c10Group : RegisteredGroup := ⟨"G", "g", some false⟩

def c10Cfg : Config :=
  ⟨"main", fun _ => false, [("c", c10Group)],
    fun j => if j = "c" then [c10Late, c10Skipped] else []⟩

def c10St : DispatchState := ⟨fun _ => 30, fun _ => 30, fun _ => true, [], []⟩

/-- C10 counterexample: a message pending at the moment /stop advances the
watermark to now is skipped at that point, yet is NOT permanently excluded:
after the dispatch loop's empty-pending fallback pipes a later-arriving
older-timestamped batch, the watermark regresses below the skipped message's
timestamp and the next turn's pending set - hence its prompt - contains the
message again. -/
theorem stop_skip_not_permanent :
    c10Skipped ∈ pendingOf c10Cfg c10St "c" ∧
      c10Skipped.timestamp ≤ 100 ∧
      (telegramStopCommand c10St "c" 100).lastAgentTimestamp "c" = 100 ∧
      c10Skipped ∉
        pendingOf c10Cfg (telegramStopCommand c10St "c" 100) "c" ∧
      pendingOf c10Cfg
          (dispatchHandleGroup c10Cfg (telegramStopCommand c10St "c" 100)
            "c" [c10Late]) "c" = [c10Skipped] ∧
      turnInvokes c10Cfg
        (dispatchHandleGroup c10Cfg (telegramStopCommand c10St "c" 100)
          "c" [c10Late]) "c" = true := by
  refine ⟨by decide, by decide, by decide, by decide, by decide, by decide⟩

/-- C10 (amended): the shutdown handler and the /stop and /restart commands
set the affected conversation's watermark (in memory, and persisted for the
command handlers) to the wall-clock now rather than any delivered message's
timestamp, and every message pending at that moment with timestamp at or
before now is excluded from the pending set for as long as the watermark
stays at or above now; permanence fails only through a later watermark
regression (rollback or dispatch-loop fallback), as the counterexample
shows. -/
theorem shutdown_and_commands_advance_cursor_to_now (st : DispatchState)
    (keys : List String) (c : String) (now : Nat)
    (hlive : st.liveProcess c = true) (hmem : c ∈ keys) :
    (telegramStopCommand st c now).lastAgentTimestamp c = now ∧
      (telegramStopCommand st c now).persistedAgentTimestamp c = now ∧
      (telegramRestartCommand st c now).lastAgentTimestamp c = now ∧
      (telegramRestartCommand st c now).persistedAgentTimestamp c = now ∧
      (shutdownAdvanceCursors st keys now).lastAgentTimestamp c = now ∧
      (shutdownAdvanceCursors st keys now).persistedAgentTimestamp c = now ∧
      ∀ (msgs : List Msg) (m : Msg) (cur : Nat),
        m ∈ getMessagesSince msgs (st.lastAgentTimestamp c) →
        m.timestamp ≤ now → now ≤ cur →
        m ∉ getMessagesSince msgs cur := by
  have hshut : (shutdownAdvanceCursors st keys now).lastAgentTimestamp c =
      now := by
    unfold shutdownAdvanceCursors
    rw [DispatchState.saveState, foldl_setCursor_lastAgentTimestamp]
    simp [hmem]
  refine ⟨?_, ?_, ?_, ?_, hshut, ?_, ?_⟩
  · simp [telegramStopCommand, advanceCursorNow, hlive,
      DispatchState.setCursor, DispatchState.saveState, updNat_same]
  · simp [telegramStopCommand, advanceCursorNow, hlive,
      DispatchState.setCursor, DispatchState.saveState, updNat_same]
  · simp [telegramRestartCommand, advanceCursorNow, hlive,
      DispatchState.setCursor, DispatchState.saveState, updNat_same]
  · simp [telegramRestartCommand, advanceCursorNow, hlive,
      DispatchState.setCursor, DispatchState.saveState, updNat_same]
  · unfold shutdownAdvanceCursors
    rw [DispatchState.saveState]
    show (keys.foldl (fun acc jid => acc.setCursor jid now)
      st).lastAgentTimestamp c = now
    rw [foldl_setCursor_lastAgentTimestamp]
    simp [hmem]
  · intro msgs m cur _ hle hcur hmem'
    have := mem_getMessagesSince hmem'
    omega

theorem shutdown_and_commands_advance_cursor_to_now_witness :
    (telegramStopCommand c10St "c" 100).lastAgentTimestamp "c" = 100 ∧
      (shutdownAdvanceCursors c10St ["c"] 100).lastAgentTimestamp "c" =
        100 ∧
      c10Skipped ∉ getMessagesSince [c10Late, c10Skipped] 100 :=
  ⟨(shutdown_and_commands_advance_cursor_to_now c10St ["c"] "c" 100 rfl
      (by decide)).1,
    (shutdown_and_commands_advance_cursor_to_now c10St ["c"] "c" 100 rfl
      (by decide)).2.2.2.2.1,
    (shutdown_and_commands_advance_cursor_to_now c10St ["c"] "c" 100 rfl
      (by decide)).2.2.2.2.2.2 [c10Late, c10Skipped] c10Skipped 100
      (by decide) (by decide) (by decide)⟩

end NanoClaw
